import Mathlib

/-!
Shallow embedding of `src/dev/axydes/DuCTT/controllers/DuCTTLearningController.cpp`
(NTRTsim, DuCTT learning controller).

Numeric conventions: C++ `double` values are modelled as `ℚ` wherever the source
only performs field arithmetic and comparisons; the transcendental parts
(`sin` in the sine-wave evaluation, `sqrt` in the displacement metric) are
modelled over `ℝ` with `Real.sin` / `Real.sqrt`.  Machine integers (`int`,
`size_t`) are modelled as `ℕ`; the claims only exercise the ranges where the
C++ and `ℕ` arithmetic agree, except where a claim is precisely about an
out-of-range access, which is then modelled explicitly.
-/

namespace DuCTT

/-- Constant from the constructor initializer list: `nClusters(2)`. -/
def nClusters : ℕ := 2

/-- Constant from the constructor initializer list: `musclesPerCluster(4)`. -/
def musclesPerCluster : ℕ := 4

/-- Constant from the constructor initializer list: `nPrisms(2)`. -/
def nPrisms : ℕ := 2

/-- Constant from the constructor initializer list: `nActions(nClusters+nPrisms)`. -/
def nActions : ℕ := nClusters + nPrisms

/-- Constant from `#define N_PARAMS 4` (sine-wave parameters per channel). -/
def N_PARAMS : ℕ := 4

/-- Constant from `#define M_PI 3.14159265358979323846` (the source defines its
own rational literal for pi, so the embedding keeps it in `ℚ`). -/
def M_PI : ℚ := 3.14159265358979323846

/-- Minimum amplitude, angularFrequency, phaseChange, dcOffset
(`mins[N_PARAMS]` in `transformActions`). -/
def mins : ℕ → ℚ
  | 0 => 0
  | 1 => 0.3
  | 2 => -M_PI
  | 3 => 0
  | _ => 0

/-- Maximum amplitude, angularFrequency, phaseChange, dcOffset
(`maxes[N_PARAMS]` in `transformActions`). -/
def maxes : ℕ → ℚ
  | 0 => 40
  | 1 => 20
  | 2 => M_PI
  | 3 => 40
  | _ => 0

/-- Per-parameter range (`ranges[j] = maxes[j]-mins[j]` in `transformActions`). -/
def ranges (j : ℕ) : ℚ := maxes j - mins j

/-- Embedding of `DuCTTLearningController::transformActions` (the non-manual
path, where `params = actions[0]`, so `actions[0].size() = params.size()`).
Takes the current values of the member variables `m_bIgnoreTouchSensors` and
`m_dHistorisisSeconds` and returns the decoded channel matrix together with
their updated values.  Out-of-range vector reads are modelled by `List.getD`
with default `0`; the claims only exercise in-range indices. -/
def transformActions (params : List ℚ) (ignoreTouch : Bool) (hysteresis : ℚ) :
    List (List ℚ) × Bool × ℚ :=
  let newActions := (List.range nActions).map (fun i =>
    (List.range N_PARAMS).map (fun j =>
      params.getD (i * N_PARAMS + j) 0 * ranges j + mins j))
  let ignoreTouch :=
    if params.length % 4 ≠ 0 then
      let touchOffset := params.length - nActions * N_PARAMS
      decide (params.getD (params.length - touchOffset) 0 < 0.5)
    else ignoreTouch
  let hysteresis :=
    if params.length % 4 ≠ 0 then
      let minHistorisis : ℚ := 0
      let maxHistorisis : ℚ := 2
      let offset := params.length - (nActions * N_PARAMS + 1)
      params.getD (params.length - offset) 0 * (maxHistorisis - minHistorisis) +
        minHistorisis
    else hysteresis
  (newActions, ignoreTouch, hysteresis)

/-- Controller member state of `DuCTTLearningController` that the per-tick and
teardown code reads or writes.  `amplitude`, `angularFrequency`, `phaseChange`
and `dcOffset` model the four heap arrays of length `nActions`; `initPosition`
is the recorded start centre of mass. -/
@[ext]
structure CtrlState where
  m_totalTime : ℚ
  m_bRecordedStart : Bool
  m_bBadRun : Bool
  m_bIgnoreTouchSensors : Bool
  m_dHistorisisSeconds : ℚ
  bottomCounter : ℕ
  topCounter : ℕ
  m_bBottomPaused : Bool
  m_bTopPaused : Bool
  m_initialLength : ℚ
  m_axis : ℤ
  initPosition : ℝ × ℝ × ℝ
  amplitude : ℕ → ℚ
  angularFrequency : ℕ → ℚ
  phaseChange : ℕ → ℚ
  dcOffset : ℕ → ℚ

/-- Per-tick readings taken from the `DuCTTRobotModel` subject: the touching
state of each touch-sensor group, the centre of mass, the bottom prismatic's
actual length, and the number of muscles (used by `moveMotors`). -/
structure SubjectInput where
  topTouchSensors : List Bool
  bottomTouchSensors : List Bool
  com : ℝ × ℝ × ℝ
  bottomPrismActualLength : ℚ
  numMuscles : ℕ

/-- Commands the controller dispatches to actuators and joints during a tick:
`controlMuscle` models `imp_controller->control(muscle, dt, m_initialLength, v)`,
`setPrismPref` models `tgPrismatic::setPreferredLength`, and the two motor
commands model the `moveMotors` calls. -/
inductive Command
  | controlMuscle (cluster node : ℕ) (dt : ℚ) (target : ℚ) (velocity : ℝ)
  | setPrismPref (top : Bool) (length : ℝ)
  | moveMuscleMotors (muscle : ℕ) (dt : ℚ)
  | movePrismMotors (top : Bool) (dt : ℚ)

/-- Embedding of `DuCTTLearningController::shouldPause`: true when every touch
sensor of the group is touching. -/
def shouldPause (touchSensors : List Bool) : Bool :=
  touchSensors.all (fun touching => touching)

/-- Embedding of `DuCTTLearningController::isLocked`.  `maxCount` is the
hysteresis bound `m_dHistorisisSeconds*1000` (1000 Hz timestep).  Returns the
`isLocked` result together with the updated counters and paused flags. -/
def isLocked (st : CtrlState) (inp : SubjectInput) (top : Bool) :
    Bool × CtrlState :=
  let maxCount : ℚ := st.m_dHistorisisSeconds * 1000
  let sPause := shouldPause (if top then inp.topTouchSensors else inp.bottomTouchSensors)
  let sUnPause := shouldPause (if top then inp.bottomTouchSensors else inp.topTouchSensors)
  let st1 :=
    if top then
      if (sPause && !st.m_bTopPaused) || (sUnPause && st.m_bTopPaused) then
        { st with topCounter := st.topCounter + 1 }
      else st
    else
      if (sPause && !st.m_bBottomPaused) || (sUnPause && st.m_bBottomPaused) then
        { st with bottomCounter := st.bottomCounter + 1 }
      else st
  if sPause then
    if top && decide (maxCount < (st1.topCounter : ℚ)) then
      if !st1.m_bTopPaused then
        (true, { st1 with m_bTopPaused := true, topCounter := 0 })
      else
        (false, { st1 with m_bTopPaused := false, topCounter := 0 })
    else if !top && decide (maxCount < (st1.bottomCounter : ℚ)) then
      if !st1.m_bBottomPaused then
        (true, { st1 with m_bBottomPaused := true, bottomCounter := 0 })
      else
        (false, { st1 with m_bBottomPaused := false, bottomCounter := 0 })
    else (false, st1)
  else (false, st1)

/-- Iterate the state part of `isLocked` for a fixed joint and fixed sensor
input over `n` ticks (the lock state machine run). -/
def lockIter (inp : SubjectInput) (top : Bool) (n : ℕ) (st : CtrlState) :
    CtrlState :=
  (fun s => (isLocked s inp top).2)^[n] st

/-- Paused flag of the given joint (`m_bTopPaused` / `m_bBottomPaused`). -/
def pausedOf (st : CtrlState) (top : Bool) : Bool :=
  cond top st.m_bTopPaused st.m_bBottomPaused

/-- Debounce counter of the given joint (`topCounter` / `bottomCounter`). -/
def counterOf (st : CtrlState) (top : Bool) : ℕ :=
  cond top st.topCounter st.bottomCounter

/-- Touch-sensor group whose full contact signals a pause for the given
joint. -/
def pauseGroup (inp : SubjectInput) (top : Bool) : List Bool :=
  cond top inp.topTouchSensors inp.bottomTouchSensors

/-- Touch-sensor group whose full contact signals an unpause for the given
joint. -/
def unpauseGroup (inp : SubjectInput) (top : Bool) : List Bool :=
  cond top inp.bottomTouchSensors inp.topTouchSensors

/-- Channel index used for prismatic joint `prism` in `applyActions` and
`setPrismaticLengths`: `idx = prism + clusters.size()-1` in the source. -/
def prismParamIdx (prism : ℕ) : ℕ := prism + nClusters - 1

/-- Embedding of `DuCTTLearningController::applyActions`: copies the decoded
channel tuples into the `amplitude`/`angularFrequency`/`phaseChange`/`dcOffset`
arrays, first for the clusters (indices `0..nClusters-1`), then for the prisms
at `prismParamIdx prism`.  Array cells not written by either loop keep the
value they had before the call (heap cells allocated by `initializeSineWaves`
are uninitialized in the source). -/
def applyActions (st : CtrlState) (actions : List (List ℚ)) : CtrlState :=
  let st :=
    (List.range nClusters).foldl (fun s cluster =>
      { s with
        amplitude := Function.update s.amplitude cluster ((actions.getD cluster []).getD 0 0)
        angularFrequency := Function.update s.angularFrequency cluster ((actions.getD cluster []).getD 1 0)
        phaseChange := Function.update s.phaseChange cluster ((actions.getD cluster []).getD 2 0)
        dcOffset := Function.update s.dcOffset cluster ((actions.getD cluster []).getD 3 0) }) st
  (List.range nPrisms).foldl (fun s prism =>
    let idx := prismParamIdx prism
    { s with
      amplitude := Function.update s.amplitude idx ((actions.getD idx []).getD 0 0)
      angularFrequency := Function.update s.angularFrequency idx ((actions.getD idx []).getD 1 0)
      phaseChange := Function.update s.phaseChange idx ((actions.getD idx []).getD 2 0)
      dcOffset := Function.update s.dcOffset idx ((actions.getD idx []).getD 3 0) }) st

/-- Value of the running `phase` accumulator at the start of loop iteration
`i`, when iteration `k` reads channel `idxOf k`.  Both `setPreferredMuscleLengths`
(with `idxOf = id`) and `setPrismaticLengths` (with `idxOf = prismParamIdx`)
start their local accumulator at `0` and execute `phase += phaseChange[idxOf k]`
at the end of iteration `k`. -/
def loopPhase (pc : ℕ → ℚ) (idxOf : ℕ → ℕ) : ℕ → ℚ
  | 0 => 0
  | i + 1 => loopPhase pc idxOf i + pc (idxOf i)

/-- Sine-wave evaluation `amplitude * sin(angularFrequency * t + phase) + dcOffset`
shared by `setPreferredMuscleLengths` and `setPrismaticLengths`. -/
noncomputable def sineEval (amp freq off t phase : ℚ) : ℝ :=
  (amp : ℝ) * Real.sin ((freq : ℝ) * (t : ℝ) + (phase : ℝ)) + (off : ℝ)

/-- Embedding of `DuCTTLearningController::setPreferredMuscleLengths`: for each
cluster and each muscle in it, dispatch an impedance-control command whose
velocity target is the cluster's sine wave evaluated at the running phase. -/
noncomputable def setPreferredMuscleLengths (st : CtrlState) (dt : ℚ) :
    List Command :=
  (List.range nClusters).flatMap (fun cluster =>
    (List.range musclesPerCluster).map (fun node =>
      Command.controlMuscle cluster node dt st.m_initialLength
        (sineEval (st.amplitude cluster) (st.angularFrequency cluster)
          (st.dcOffset cluster) st.m_totalTime
          (loopPhase st.phaseChange id cluster))))

/-- Embedding of `DuCTTLearningController::setPrismaticLengths`: for each prism
(0 = bottom, 1 = top), if touch sensors are ignored the preferred-length command
is always dispatched and `isLocked` is not called (the C++ `||`
short-circuits); otherwise `isLocked` runs (updating counters/flags) and the
command is dispatched only when it returns false.  The channel read is
`prismParamIdx prism` and the phase accumulator is `loopPhase _ prismParamIdx`. -/
def setPrismaticLengths (st : CtrlState) (inp : SubjectInput)
    (cmdOf : CtrlState → ℕ → Bool → ℚ → Command) : CtrlState × List Command :=
  (List.range nPrisms).foldl (fun acc prism =>
    let idx := prismParamIdx prism
    let top := prism == 1
    let phase := loopPhase st.phaseChange prismParamIdx prism
    if acc.1.m_bIgnoreTouchSensors then
      (acc.1, acc.2 ++ [cmdOf acc.1 idx top phase])
    else
      let r := isLocked acc.1 inp top
      if r.1 then (r.2, acc.2)
      else (r.2, acc.2 ++ [cmdOf r.2 idx top phase])) (st, [])

/-- Preferred-length command of `setPrismaticLengths`:
`newLength = amplitude[idx] * sin(angularFrequency[idx]*m_totalTime + phase) + dcOffset[idx]`. -/
noncomputable def prismCmd (s : CtrlState) (idx : ℕ) (top : Bool) (phase : ℚ) :
    Command :=
  Command.setPrismPref top
    (sineEval (s.amplitude idx) (s.angularFrequency idx) (s.dcOffset idx)
      s.m_totalTime phase)

/-- Embedding of `DuCTTLearningController::moveMotors`: one motor command per
muscle, then one for each prismatic joint. -/
def moveMotorsCmds (inp : SubjectInput) (dt : ℚ) : List Command :=
  (List.range inp.numMuscles).map (fun i => Command.moveMuscleMotors i dt) ++
    [Command.movePrismMotors false dt, Command.movePrismMotors true dt]

/-- Body of `DuCTTLearningController::onStep` after the `dt` guard: advance
`m_totalTime`; during the first 3 seconds only run the bottom lock check (and
freeze the bottom prism at its actual length when it locks); afterwards record
the start position once, then dispatch muscle, prism and motor commands.  The
`tilting` computation of the source writes only a dead local and the trailing
`displacement` call discards its result, so neither has an observable effect. -/
noncomputable def stepBody (st : CtrlState) (inp : SubjectInput) (dt : ℚ) :
    CtrlState × List Command :=
  let st := { st with m_totalTime := st.m_totalTime + dt }
  if st.m_totalTime < 3 then
    let r := isLocked st inp false
    if r.1 then
      (r.2, [Command.setPrismPref false (inp.bottomPrismActualLength : ℝ)])
    else (r.2, [])
  else
    let st2 :=
      if !st.m_bRecordedStart then
        { st with initPosition := inp.com, m_bRecordedStart := true }
      else st
    let muscleCmds := setPreferredMuscleLengths st2 dt
    let pr := setPrismaticLengths st2 inp prismCmd
    (pr.1, muscleCmds ++ pr.2 ++ moveMotorsCmds inp dt)

/-- Embedding of `DuCTTLearningController::onStep`: throws
`std::invalid_argument("dt is not positive")` when `dt <= 0`, before any other
effect; otherwise runs the step body. -/
noncomputable def onStep (st : CtrlState) (inp : SubjectInput) (dt : ℚ) :
    Except String (CtrlState × List Command) :=
  if dt ≤ 0 then Except.error "dt is not positive"
  else Except.ok (stepBody st inp dt)

/-- Inner loop of `totalEnergySpent` over one actuator's history, given as a
list of `(tension, restLength)` samples: for each consecutive pair, clamp the
rest-length delta (`motorSpeed`) to be nonpositive and add
`previousTension * motorSpeed`. -/
def stringEnergy : List (ℚ × ℚ) → ℚ
  | [] => 0
  | [_] => 0
  | a :: b :: rest =>
      let motorSpeed := b.2 - a.2
      let motorSpeed := if motorSpeed > 0 then 0 else motorSpeed
      a.1 * motorSpeed + stringEnergy (b :: rest)

/-- Embedding of `DuCTTLearningController::totalEnergySpent`: accumulate
`stringEnergy` over the recorded histories of all muscles. -/
def totalEnergySpent (hists : List (List (ℚ × ℚ))) : ℚ :=
  hists.foldl (fun acc h => acc + stringEnergy h) 0

/-- Embedding of `DuCTTLearningController::displacement`: distance between the
recorded start position and the current centre of mass, projected according to
`m_axis` (0 ↦ |Δx|, 2 ↦ |Δz|, 3 ↦ 3-D Euclidean distance, 1 and every other
value ↦ signed Δy). -/
noncomputable def displacement (axis : ℤ) (oldP newP : ℝ × ℝ × ℝ) : ℝ :=
  let distanceMoved := Real.sqrt
    ((newP.1 - oldP.1) * (newP.1 - oldP.1) +
     (newP.2.1 - oldP.2.1) * (newP.2.1 - oldP.2.1) +
     (newP.2.2 - oldP.2.2) * (newP.2.2 - oldP.2.2))
  if axis = 0 then |newP.1 - oldP.1|
  else if axis = 2 then |newP.2.2 - oldP.2.2|
  else if axis = 3 then distanceMoved
  else newP.2.1 - oldP.2.1

/-- Embedding of `DuCTTLearningController::onTeardown`: build the two-element
score vector (`displacement` or the sentinel `-1` when the episode is a bad
run, then the energy) and reset `m_totalTime`, `m_bRecordedStart` and
`m_bBadRun`.  All remaining member state is left untouched. -/
noncomputable def onTeardown (st : CtrlState) (hists : List (List (ℚ × ℚ)))
    (finalCOM : ℝ × ℝ × ℝ) : CtrlState × List ℝ :=
  let distance := displacement st.m_axis st.initPosition finalCOM
  let energySpent := ((totalEnergySpent hists : ℚ) : ℝ)
  let scores : List ℝ :=
    (if !st.m_bBadRun then [distance] else [(-1 : ℝ)]) ++ [energySpent]
  ({ st with m_totalTime := 0, m_bRecordedStart := false, m_bBadRun := false },
   scores)

/-- Size of the result vector of `readManualParams`:
`numParams = nActions*N_PARAMS+2`. -/
def numParams : ℕ := nActions * N_PARAMS + 2

/-- Write trace of the `while(getline(...) && iCell <= numParams)` loop of
`readManualParams`: the sequence of `(index, value)` vector writes it performs
on the comma-separated fields of the input line.  The loop keeps writing while
`iCell <= numParams`, so the recorded index can reach `numParams` itself. -/
def manualReadLoop : List ℚ → ℕ → List (ℕ × ℚ)
  | [], _ => []
  | cell :: cells, iCell =>
      if iCell ≤ numParams then (iCell, cell) :: manualReadLoop cells (iCell + 1)
      else []

/-- Embedding of `DuCTTLearningController::readManualParams` before the random
perturbation step (the ±0.005 tweak draws from `rand` and is outside the
deterministic model; the relevant claim is about the pre-perturbation vector).
The input line is modelled as its list of parsed fields.  The C++ out-of-range
`result[numParams]` write is modelled by `List.set`, which leaves the vector
unchanged at an out-of-range index; the write trace `manualReadLoop` records
the raw index of every write the source performs. -/
def readManualParams (fields : List ℚ) : List ℚ :=
  (manualReadLoop fields 0).foldl (fun res w => res.set w.1 w.2)
    (List.replicate numParams 1)

/-- Reference controller state: the member values right after construction
(`m_totalTime = 0`, flags false, counters zero, default hysteresis 0.5 s,
axis 1), with the sine-parameter arrays zeroed for concreteness. -/
def stW : CtrlState where
  m_totalTime := 0
  m_bRecordedStart := false
  m_bBadRun := false
  m_bIgnoreTouchSensors := true
  m_dHistorisisSeconds := 0.5
  bottomCounter := 0
  topCounter := 0
  m_bBottomPaused := false
  m_bTopPaused := false
  m_initialLength := 5
  m_axis := 1
  initPosition := ((0 : ℝ), (0 : ℝ), (0 : ℝ))
  amplitude := fun _ => 0
  angularFrequency := fun _ => 0
  phaseChange := fun _ => 0
  dcOffset := fun _ => 0

/-- Concrete sensor input: the bottom touch-sensor group fully touching, the
top group not touching. -/
def inpW : SubjectInput where
  topTouchSensors := [false]
  bottomTouchSensors := [true]
  com := ((0 : ℝ), (0 : ℝ), (0 : ℝ))
  bottomPrismActualLength := 2
  numMuscles := 8

/-- Controller state with hysteresis `1/500` s, so `maxCount = 2` ticks. -/
def stC2 : CtrlState := { stW with m_dHistorisisSeconds := 1 / 500 }

/-- Mid-episode controller state with the top joint paused and a nonzero
debounce counter. -/
def stC3 : CtrlState :=
  { stW with m_totalTime := 42, m_bRecordedStart := true, m_bBadRun := true,
             m_bTopPaused := true, topCounter := 7 }

/-- Controller state flagged as a bad run. -/
def stBad : CtrlState := { stW with m_bBadRun := true }

/-- Concrete actuator histories: tensions and nondecreasing rest lengths. -/
def histsW : List (List (ℚ × ℚ)) := [[(5, 1), (3, 2)], [(2, 3), (4, 3)]]

/-- Concrete flat parameter vector of length `4*nActions`. -/
def p16 : List ℚ := List.replicate 16 (1 / 2)

/-- Concrete flat parameter vector of length `4*nActions + 2`. -/
def p18 : List ℚ := List.replicate 18 (1 / 4)

example :
    (transformActions (List.replicate 16 (0.5 : ℚ)) true 0.5).2.1 = true := by
  norm_num [transformActions, nActions, nClusters, nPrisms, N_PARAMS]

example :
    (transformActions (List.replicate 16 (0.5 : ℚ)) false 0.5).2.2 = 0.5 := by
  norm_num [transformActions, nActions, nClusters, nPrisms, N_PARAMS]

example :
    ((transformActions (List.replicate 16 (0.5 : ℚ)) false 0.5).1.getD 0 []).getD 0 0
      = 20 := by
  norm_num [transformActions, nActions, nClusters, nPrisms, N_PARAMS, ranges,
    maxes, mins, List.range_succ]

example :
    (transformActions (List.replicate 18 (0.25 : ℚ)) false 0.5).2.1 = true := by
  norm_num [transformActions, nActions, nClusters, nPrisms, N_PARAMS]

example :
    (transformActions (List.replicate 18 (0.25 : ℚ)) false 0.5).2.2 = 0.5 := by
  norm_num [transformActions, nActions, nClusters, nPrisms, N_PARAMS]

/-- Claim C3 (amended): after `onTeardown` returns, elapsed time is 0 and the
recorded-start and bad-run flags are false, but the joints' paused flags and
debounce counters keep their pre-teardown values (they are not reset). -/
theorem onTeardown_state (st : CtrlState) (hists : List (List (ℚ × ℚ)))
    (fc : ℝ × ℝ × ℝ) :
    (onTeardown st hists fc).1.m_totalTime = 0 ∧
    (onTeardown st hists fc).1.m_bRecordedStart = false ∧
    (onTeardown st hists fc).1.m_bBadRun = false ∧
    (onTeardown st hists fc).1.topCounter = st.topCounter ∧
    (onTeardown st hists fc).1.bottomCounter = st.bottomCounter ∧
    (onTeardown st hists fc).1.m_bTopPaused = st.m_bTopPaused ∧
    (onTeardown st hists fc).1.m_bBottomPaused = st.m_bBottomPaused :=
  ⟨rfl, rfl, rfl, rfl, rfl, rfl, rfl⟩

/-- Claim C3, counterexample to the claim as stated: torn down from a state
whose top joint is paused with debounce counter 7, the controller keeps the
paused flag and the counter value, instead of the claimed reset to initial
values (`false` / `0`). -/
theorem onTeardown_state_cex :
    (onTeardown stC3 [] ((0 : ℝ), (0 : ℝ), (0 : ℝ))).1.topCounter = 7 ∧
    (onTeardown stC3 [] ((0 : ℝ), (0 : ℝ), (0 : ℝ))).1.m_bTopPaused = true :=
  ⟨rfl, rfl⟩

/-- Claim C7: the reported score vector has exactly two elements; its first
element is the sentinel -1 whenever the bad-run flag is set, and otherwise the
displacement metric selected by the axis (0 ↦ |Δx|, 2 ↦ |Δz|, 3 ↦ 3-D
Euclidean distance, 1 and every unrecognized axis ↦ signed Δy). -/
theorem onTeardown_scores (st : CtrlState) (hists : List (List (ℚ × ℚ)))
    (fc : ℝ × ℝ × ℝ) :
    (onTeardown st hists fc).2.length = 2 ∧
    (st.m_bBadRun = true →
      (onTeardown st hists fc).2 =
        [(-1 : ℝ), ((totalEnergySpent hists : ℚ) : ℝ)]) ∧
    (st.m_bBadRun = false →
      (onTeardown st hists fc).2 =
        [displacement st.m_axis st.initPosition fc,
         ((totalEnergySpent hists : ℚ) : ℝ)]) ∧
    (∀ o n : ℝ × ℝ × ℝ,
      displacement 0 o n = |n.1 - o.1| ∧
      displacement 2 o n = |n.2.2 - o.2.2| ∧
      displacement 3 o n =
        Real.sqrt ((n.1 - o.1) * (n.1 - o.1) +
          (n.2.1 - o.2.1) * (n.2.1 - o.2.1) +
          (n.2.2 - o.2.2) * (n.2.2 - o.2.2)) ∧
      (∀ a : ℤ, a ≠ 0 → a ≠ 2 → a ≠ 3 →
        displacement a o n = n.2.1 - o.2.1)) := by
  refine ⟨?_, fun hb => ?_, fun hb => ?_, fun o n => ⟨?_, ?_, ?_, fun a h0 h2 h3 => ?_⟩⟩
  · cases hb : st.m_bBadRun <;> simp [onTeardown, hb]
  · simp [onTeardown, hb]
  · simp [onTeardown, hb]
  · simp [displacement]
  · simp [displacement]
  · simp [displacement]
  · simp [displacement, h0, h2, h3]

/-- Claim C7, witness: a bad-run episode reports `[-1, energy]`, and an
unrecognized axis value (5) yields the signed y-displacement. -/
theorem onTeardown_scores_witness :
    (onTeardown stBad [] ((0 : ℝ), (0 : ℝ), (0 : ℝ))).2 =
      [(-1 : ℝ), ((totalEnergySpent [] : ℚ) : ℝ)] ∧
    displacement 5 ((0 : ℝ), (0 : ℝ), (0 : ℝ)) ((0 : ℝ), (2 : ℝ), (0 : ℝ)) =
      (2 : ℝ) - 0 :=
  ⟨(onTeardown_scores stBad [] ((0 : ℝ), (0 : ℝ), (0 : ℝ))).2.1 rfl,
   ((onTeardown_scores stW [] ((0 : ℝ), (0 : ℝ), (0 : ℝ))).2.2.2
      ((0 : ℝ), (0 : ℝ), (0 : ℝ)) ((0 : ℝ), (2 : ℝ), (0 : ℝ))).2.2.2 5
     (by decide) (by decide) (by decide)⟩

/-- Claim C9: `onStep` returns the invalid-argument error exactly when
`dt ≤ 0`, before any other effect (the error carries no state update and no
dispatched command), and for positive `dt` it runs the step body. -/
theorem onStep_dt_guard (st : CtrlState) (inp : SubjectInput) (dt : ℚ) :
    (dt ≤ 0 → onStep st inp dt = Except.error "dt is not positive") ∧
    (0 < dt → onStep st inp dt = Except.ok (stepBody st inp dt)) := by
  constructor
  · intro h; simp [onStep, h]
  · intro h; simp [onStep, not_le.mpr h]

/-- Claim C9, witness: at `dt = -1` the error is raised, at `dt = 1` the step
body runs. -/
theorem onStep_dt_guard_witness :
    onStep stW inpW (-1) = Except.error "dt is not positive" ∧
    onStep stW inpW 1 = Except.ok (stepBody stW inpW 1) :=
  ⟨(onStep_dt_guard stW inpW (-1)).1 (by norm_num),
   (onStep_dt_guard stW inpW 1).2 (by norm_num)⟩

/-- Helper: folding vector writes with `List.set` preserves the length. -/
theorem foldl_set_length (ws : List (ℕ × ℚ)) (init : List ℚ) :
    (ws.foldl (fun res w => res.set w.1 w.2) init).length = init.length := by
  induction ws generalizing init with
  | nil => rfl
  | cons w ws ih => rw [List.foldl_cons, ih, List.length_set]

/-- Claim C10: the returned vector always has exactly `numParams` elements,
but on a line with `numParams + 1` fields the loop's `iCell <= numParams`
bound admits the write index `numParams` itself — one past the end of the
vector — so the claimed in-range bound does not hold. -/
theorem readManualParams_writes :
    numParams ∈ (manualReadLoop (List.replicate (numParams + 1) (0 : ℚ)) 0).map
      Prod.fst ∧
    (∀ fields : List ℚ, (readManualParams fields).length = numParams) := by
  constructor
  · decide
  · intro fields
    rw [readManualParams, foldl_set_length, List.length_replicate]

/-- Helper: the running phase accumulator at iteration `n` is the sum of the
`phaseChange` values of the channels read by the earlier iterations. -/
theorem loopPhase_eq_sum (pc : ℕ → ℚ) (idxOf : ℕ → ℕ) (n : ℕ) :
    loopPhase pc idxOf n = ∑ k ∈ Finset.range n, pc (idxOf k) := by
  induction n with
  | zero => rfl
  | succ n ih => rw [loopPhase, ih, Finset.sum_range_succ]

/-- Claim C5 (amended): each loop adds a channel's own `phaseChange` to its
accumulator only after evaluating that channel, but the accumulator is local
to each traversal: cluster `c` is evaluated with the sum of the `phaseChange`
of clusters before it, and prism `j` with the sum of the `phaseChange` of the
channels `prismParamIdx k` of the prisms before it — the joint traversal
restarts at phase 0 instead of continuing the cluster accumulation. -/
theorem phase_accumulation (pc : ℕ → ℚ) :
    (∀ c, loopPhase pc id c = ∑ k ∈ Finset.range c, pc k) ∧
    (∀ j, loopPhase pc prismParamIdx j =
      ∑ k ∈ Finset.range j, pc (prismParamIdx k)) :=
  ⟨fun c => loopPhase_eq_sum pc id c, fun j => loopPhase_eq_sum pc prismParamIdx j⟩

/-- Claim C5, counterexample to the claim as stated: with every channel's
`phaseChange` equal to 1, the first joint channel is evaluated at phase 0,
while the channels before it in traversal order (the `nClusters = 2` clusters)
contribute a cumulative phase of 2. -/
theorem phase_accumulation_cex :
    loopPhase (fun _ => (1 : ℚ)) prismParamIdx 0 = 0 ∧
    loopPhase (fun _ => (1 : ℚ)) id nClusters = 2 := by
  constructor
  · rfl
  · norm_num [loopPhase, nClusters]

/-- Claim C1: the channel index driving prismatic joint `j` is
`prismParamIdx j = j + nClusters - 1`, not `nClusters + j`: the bottom prism
(j = 0) reads channel 1, the channel of cluster 2, and channel
`nClusters + 1 = 3` is never assigned by `applyActions` (all four of its
parameter cells keep their previous, uninitialized values). -/
theorem prism_channel_binding :
    prismParamIdx 0 = 1 ∧ prismParamIdx 1 = 2 ∧ nClusters = 2 ∧
    (∀ (st : CtrlState) (actions : List (List ℚ)),
      (applyActions st actions).amplitude 1 = (actions.getD 1 []).getD 0 0 ∧
      (applyActions st actions).amplitude 3 = st.amplitude 3 ∧
      (applyActions st actions).angularFrequency 3 = st.angularFrequency 3 ∧
      (applyActions st actions).phaseChange 3 = st.phaseChange 3 ∧
      (applyActions st actions).dcOffset 3 = st.dcOffset 3) := by
  refine ⟨rfl, rfl, rfl, fun st actions => ?_⟩
  norm_num [applyActions, prismParamIdx, nClusters, nPrisms, List.range_succ,
    Function.update]

/-- Helper: one step of the energy loop equals
`previousTension * min 0 (currentRestLength - previousRestLength)`. -/
theorem stringEnergy_cons_cons (a b : ℚ × ℚ) (rest : List (ℚ × ℚ)) :
    stringEnergy (a :: b :: rest) =
      a.1 * min 0 (b.2 - a.2) + stringEnergy (b :: rest) := by
  rw [stringEnergy]
  rcases le_or_lt (b.2 - a.2) 0 with h | h
  · rw [if_neg (not_lt.mpr h), min_eq_right h]
  · rw [if_pos h, min_eq_left h.le]

/-- Helper: `stringEnergy` equals the sum over consecutive sample pairs of
`previousTension * min 0 (restLengthDelta)`. -/
theorem stringEnergy_eq_sum :
    ∀ h : List (ℚ × ℚ),
      stringEnergy h =
        ((h.zip h.tail).map (fun pq => pq.1.1 * min 0 (pq.2.2 - pq.1.2))).sum
  | [] => by simp [stringEnergy]
  | [a] => by simp [stringEnergy]
  | a :: b :: rest => by
      rw [stringEnergy_cons_cons, stringEnergy_eq_sum (b :: rest)]
      simp

/-- Helper: a history whose rest lengths never decrease contributes no
energy. -/
theorem stringEnergy_monotone_zero (h : List (ℚ × ℚ))
    (hmono : List.Chain' (fun a b : ℚ × ℚ => a.2 ≤ b.2) h) :
    stringEnergy h = 0 := by
  induction h with
  | nil => rfl
  | cons a t ih =>
      cases t with
      | nil => rfl
      | cons b rest =>
          rw [List.chain'_cons] at hmono
          rw [stringEnergy_cons_cons, ih hmono.2,
            min_eq_left (by linarith [hmono.1]), mul_zero, add_zero]

/-- Helper: the energy fold with an arbitrary accumulator. -/
theorem energy_foldl (hists : List (List (ℚ × ℚ))) (acc : ℚ) :
    hists.foldl (fun a h => a + stringEnergy h) acc =
      acc + (hists.map stringEnergy).sum := by
  induction hists generalizing acc with
  | nil => simp
  | cons h t ih => simp [List.foldl_cons, ih, add_assoc]

/-- Helper: the energy fold over all histories equals the sum of the
per-history energies. -/
theorem totalEnergySpent_eq_sum (hists : List (List (ℚ × ℚ))) :
    totalEnergySpent hists = (hists.map stringEnergy).sum := by
  rw [totalEnergySpent, energy_foldl, zero_add]

/-- Claim C8: the energy metric is the sum over all actuators and all
consecutive history samples of `previousTension * min 0 (Δ restLength)`;
when no rest length ever decreases (all deltas nonnegative), the metric is
exactly 0, so expansion events never contribute. -/
theorem totalEnergySpent_characterization :
    (∀ hists : List (List (ℚ × ℚ)),
      totalEnergySpent hists =
        (hists.map (fun h =>
          ((h.zip h.tail).map
            (fun pq => pq.1.1 * min 0 (pq.2.2 - pq.1.2))).sum)).sum) ∧
    (∀ hists : List (List (ℚ × ℚ)),
      (∀ h ∈ hists, List.Chain' (fun a b : ℚ × ℚ => a.2 ≤ b.2) h) →
      totalEnergySpent hists = 0) := by
  constructor
  · intro hists
    rw [totalEnergySpent_eq_sum]
    congr 1
    exact List.map_congr_left (fun h _ => stringEnergy_eq_sum h)
  · intro hists hmono
    rw [totalEnergySpent_eq_sum]
    have : hists.map stringEnergy = hists.map (fun _ => (0 : ℚ)) :=
      List.map_congr_left (fun h hh => stringEnergy_monotone_zero h (hmono h hh))
    rw [this]
    simp

/-- Claim C8, witness: concrete histories with nondecreasing rest lengths
spend zero energy. -/
theorem totalEnergySpent_witness :
    totalEnergySpent histsW = 0 :=
  totalEnergySpent_characterization.2 histsW (by
    intro h hh
    fin_cases hh <;> norm_num [histsW, List.chain'_cons])

/-- Helper: one bottom-joint tick while unpaused with the counter still at or
below the hysteresis bound after incrementing: the counter advances and
nothing else changes. -/
theorem isLocked_bottom_advance (inp : SubjectInput) (N : ℕ) (s : CtrlState)
    (hp : shouldPause inp.bottomTouchSensors = true)
    (hu : shouldPause inp.topTouchSensors = false)
    (h0 : s.m_bBottomPaused = false)
    (hN : s.m_dHistorisisSeconds * 1000 = (N : ℚ))
    (hlt : s.bottomCounter + 1 ≤ N) :
    isLocked s inp false =
      (false, { s with bottomCounter := s.bottomCounter + 1 }) := by
  have hdec : ¬ (s.m_dHistorisisSeconds * 1000 < ((s.bottomCounter : ℚ) + 1)) := by
    rw [hN]
    have h := (Nat.cast_le (α := ℚ)).mpr hlt
    push_cast at h
    linarith
  simp [isLocked, hp, hu, h0, hdec]

/-- Helper: one bottom-joint tick while unpaused when the incremented counter
strictly exceeds the hysteresis bound: the transition to paused fires, the
counter resets, and `isLocked` returns true. -/
theorem isLocked_bottom_fire (inp : SubjectInput) (N : ℕ) (s : CtrlState)
    (hp : shouldPause inp.bottomTouchSensors = true)
    (hu : shouldPause inp.topTouchSensors = false)
    (h0 : s.m_bBottomPaused = false)
    (hN : s.m_dHistorisisSeconds * 1000 = (N : ℚ))
    (hgt : N < s.bottomCounter + 1) :
    isLocked s inp false =
      (true, { s with m_bBottomPaused := true, bottomCounter := 0 }) := by
  have hdec : s.m_dHistorisisSeconds * 1000 < ((s.bottomCounter : ℚ) + 1) := by
    rw [hN]
    have h := (Nat.cast_lt (α := ℚ)).mpr hgt
    push_cast at h
    linarith
  simp [isLocked, hp, hu, h0, hdec]

/-- Helper: one bottom-joint tick while paused under a continuous pause
signal: the counter increments only on an unpause signal, so the state is a
fixpoint. -/
theorem isLocked_bottom_stay (inp : SubjectInput) (N : ℕ) (s : CtrlState)
    (hp : shouldPause inp.bottomTouchSensors = true)
    (hu : shouldPause inp.topTouchSensors = false)
    (h1 : s.m_bBottomPaused = true)
    (hN : s.m_dHistorisisSeconds * 1000 = (N : ℚ))
    (hc : s.bottomCounter = 0) :
    isLocked s inp false = (false, s) := by
  have hdec : ¬ (s.m_dHistorisisSeconds * 1000 < (0 : ℚ)) := by
    rw [hN]
    exact not_lt.mpr (Nat.cast_nonneg N)
  simp [isLocked, hp, hu, h1, hc, hdec]

/-- Helper: run of the bottom lock machine while the counter has not yet
exceeded the bound: after `t ≤ N` ticks only the counter has advanced, to `t`. -/
theorem lockIter_bottom_run (inp : SubjectInput) (N : ℕ) (st : CtrlState)
    (hp : shouldPause inp.bottomTouchSensors = true)
    (hu : shouldPause inp.topTouchSensors = false)
    (h0 : st.m_bBottomPaused = false)
    (hc : st.bottomCounter = 0)
    (hN : st.m_dHistorisisSeconds * 1000 = (N : ℚ)) :
    ∀ t, t ≤ N → lockIter inp false t st = { st with bottomCounter := t } := by
  intro t
  induction t with
  | zero =>
      intro _
      simp only [lockIter, Function.iterate_zero_apply]
      rw [← hc]
  | succ t ih =>
      intro ht
      have hprev := ih (Nat.le_of_succ_le ht)
      simp only [lockIter, Function.iterate_succ_apply'] at *
      rw [hprev,
        isLocked_bottom_advance inp N { st with bottomCounter := t } hp hu h0 hN ht]

/-- Helper: one top-joint tick while unpaused with the counter still at or
below the hysteresis bound after incrementing. -/
theorem isLocked_top_advance (inp : SubjectInput) (N : ℕ) (s : CtrlState)
    (hp : shouldPause inp.topTouchSensors = true)
    (hu : shouldPause inp.bottomTouchSensors = false)
    (h0 : s.m_bTopPaused = false)
    (hN : s.m_dHistorisisSeconds * 1000 = (N : ℚ))
    (hlt : s.topCounter + 1 ≤ N) :
    isLocked s inp true =
      (false, { s with topCounter := s.topCounter + 1 }) := by
  have hdec : ¬ (s.m_dHistorisisSeconds * 1000 < ((s.topCounter : ℚ) + 1)) := by
    rw [hN]
    have h := (Nat.cast_le (α := ℚ)).mpr hlt
    push_cast at h
    linarith
  simp [isLocked, hp, hu, h0, hdec]

/-- Helper: one top-joint tick while unpaused when the incremented counter
strictly exceeds the hysteresis bound: the pause transition fires. -/
theorem isLocked_top_fire (inp : SubjectInput) (N : ℕ) (s : CtrlState)
    (hp : shouldPause inp.topTouchSensors = true)
    (hu : shouldPause inp.bottomTouchSensors = false)
    (h0 : s.m_bTopPaused = false)
    (hN : s.m_dHistorisisSeconds * 1000 = (N : ℚ))
    (hgt : N < s.topCounter + 1) :
    isLocked s inp true =
      (true, { s with m_bTopPaused := true, topCounter := 0 }) := by
  have hdec : s.m_dHistorisisSeconds * 1000 < ((s.topCounter : ℚ) + 1) := by
    rw [hN]
    have h := (Nat.cast_lt (α := ℚ)).mpr hgt
    push_cast at h
    linarith
  simp [isLocked, hp, hu, h0, hdec]

/-- Helper: one top-joint tick while paused under a continuous pause signal is
a fixpoint. -/
theorem isLocked_top_stay (inp : SubjectInput) (N : ℕ) (s : CtrlState)
    (hp : shouldPause inp.topTouchSensors = true)
    (hu : shouldPause inp.bottomTouchSensors = false)
    (h1 : s.m_bTopPaused = true)
    (hN : s.m_dHistorisisSeconds * 1000 = (N : ℚ))
    (hc : s.topCounter = 0) :
    isLocked s inp true = (false, s) := by
  have hdec : ¬ (s.m_dHistorisisSeconds * 1000 < (0 : ℚ)) := by
    rw [hN]
    exact not_lt.mpr (Nat.cast_nonneg N)
  simp [isLocked, hp, hu, h1, hc, hdec]

/-- Helper: run of the top lock machine up to the hysteresis bound. -/
theorem lockIter_top_run (inp : SubjectInput) (N : ℕ) (st : CtrlState)
    (hp : shouldPause inp.topTouchSensors = true)
    (hu : shouldPause inp.bottomTouchSensors = false)
    (h0 : st.m_bTopPaused = false)
    (hc : st.topCounter = 0)
    (hN : st.m_dHistorisisSeconds * 1000 = (N : ℚ)) :
    ∀ t, t ≤ N → lockIter inp true t st = { st with topCounter := t } := by
  intro t
  induction t with
  | zero =>
      intro _
      simp only [lockIter, Function.iterate_zero_apply]
      rw [← hc]
  | succ t ih =>
      intro ht
      have hprev := ih (Nat.le_of_succ_le ht)
      simp only [lockIter, Function.iterate_succ_apply'] at *
      rw [hprev,
        isLocked_top_advance inp N { st with topCounter := t } hp hu h0 hN ht]

/-- Helper: full behaviour of the bottom lock machine under a continuous pause
signal: counter run, transition exactly at tick `N+1`, then a permanent
paused fixpoint. -/
theorem lock_machine_bottom (inp : SubjectInput) (N : ℕ) (st : CtrlState)
    (hp : shouldPause inp.bottomTouchSensors = true)
    (hu : shouldPause inp.topTouchSensors = false)
    (h0 : st.m_bBottomPaused = false)
    (hc : st.bottomCounter = 0)
    (hN : st.m_dHistorisisSeconds * 1000 = (N : ℚ)) :
    (∀ t, t ≤ N → (lockIter inp false t st).m_bBottomPaused = false ∧
      (lockIter inp false t st).bottomCounter = t) ∧
    (∀ t, t < N → (isLocked (lockIter inp false t st) inp false).1 = false) ∧
    (isLocked (lockIter inp false N st) inp false).1 = true ∧
    lockIter inp false (N + 1) st =
      { st with m_bBottomPaused := true, bottomCounter := 0 } ∧
    (∀ m, lockIter inp false (N + 1 + m) st = lockIter inp false (N + 1) st) := by
  have hrun := lockIter_bottom_run inp N st hp hu h0 hc hN
  have hP : lockIter inp false (N + 1) st =
      { st with m_bBottomPaused := true, bottomCounter := 0 } := by
    have hstep : lockIter inp false (N + 1) st =
        (isLocked (lockIter inp false N st) inp false).2 := by
      simp only [lockIter, Function.iterate_succ_apply']
    rw [hstep, hrun N le_rfl,
      isLocked_bottom_fire inp N { st with bottomCounter := N } hp hu h0 hN
        (Nat.lt_succ_self N)]
  refine ⟨fun t ht => ?_, fun t ht => ?_, ?_, hP, fun m => ?_⟩
  · rw [hrun t ht]
    exact ⟨h0, rfl⟩
  · rw [hrun t ht.le,
      isLocked_bottom_advance inp N { st with bottomCounter := t } hp hu h0 hN ht]
  · rw [hrun N le_rfl,
      isLocked_bottom_fire inp N { st with bottomCounter := N } hp hu h0 hN
        (Nat.lt_succ_self N)]
  · induction m with
    | zero => rfl
    | succ m ih =>
        have hstep : lockIter inp false (N + 1 + (m + 1)) st =
            (isLocked (lockIter inp false (N + 1 + m) st) inp false).2 := by
          rw [show N + 1 + (m + 1) = (N + 1 + m) + 1 from rfl]
          simp only [lockIter, Function.iterate_succ_apply']
        rw [hstep, ih, hP,
          isLocked_bottom_stay inp N
            { st with m_bBottomPaused := true, bottomCounter := 0 }
            hp hu rfl hN rfl]

/-- Helper: full behaviour of the top lock machine under a continuous pause
signal. -/
theorem lock_machine_top (inp : SubjectInput) (N : ℕ) (st : CtrlState)
    (hp : shouldPause inp.topTouchSensors = true)
    (hu : shouldPause inp.bottomTouchSensors = false)
    (h0 : st.m_bTopPaused = false)
    (hc : st.topCounter = 0)
    (hN : st.m_dHistorisisSeconds * 1000 = (N : ℚ)) :
    (∀ t, t ≤ N → (lockIter inp true t st).m_bTopPaused = false ∧
      (lockIter inp true t st).topCounter = t) ∧
    (∀ t, t < N → (isLocked (lockIter inp true t st) inp true).1 = false) ∧
    (isLocked (lockIter inp true N st) inp true).1 = true ∧
    lockIter inp true (N + 1) st =
      { st with m_bTopPaused := true, topCounter := 0 } ∧
    (∀ m, lockIter inp true (N + 1 + m) st = lockIter inp true (N + 1) st) := by
  have hrun := lockIter_top_run inp N st hp hu h0 hc hN
  have hP : lockIter inp true (N + 1) st =
      { st with m_bTopPaused := true, topCounter := 0 } := by
    have hstep : lockIter inp true (N + 1) st =
        (isLocked (lockIter inp true N st) inp true).2 := by
      simp only [lockIter, Function.iterate_succ_apply']
    rw [hstep, hrun N le_rfl,
      isLocked_top_fire inp N { st with topCounter := N } hp hu h0 hN
        (Nat.lt_succ_self N)]
  refine ⟨fun t ht => ?_, fun t ht => ?_, ?_, hP, fun m => ?_⟩
  · rw [hrun t ht]
    exact ⟨h0, rfl⟩
  · rw [hrun t ht.le,
      isLocked_top_advance inp N { st with topCounter := t } hp hu h0 hN ht]
  · rw [hrun N le_rfl,
      isLocked_top_fire inp N { st with topCounter := N } hp hu h0 hN
        (Nat.lt_succ_self N)]
  · induction m with
    | zero => rfl
    | succ m ih =>
        have hstep : lockIter inp true (N + 1 + (m + 1)) st =
            (isLocked (lockIter inp true (N + 1 + m) st) inp true).2 := by
          rw [show N + 1 + (m + 1) = (N + 1 + m) + 1 from rfl]
          simp only [lockIter, Function.iterate_succ_apply']
        rw [hstep, ih, hP,
          isLocked_top_stay inp N
            { st with m_bTopPaused := true, topCounter := 0 }
            hp hu rfl hN rfl]

/-- Claim C2 (amended): starting unpaused with counter 0, with the joint's
pause touch-group fully touching and its unpause group not touching on every
tick, and `hysteresisSeconds*1000 = N`, the machine returns `false` on ticks
`1..N` (counting up), fires the transition to paused exactly on tick `N+1`,
and — unlike the claim's toggle-back — a continued pause signal of any further
duration leaves the joint paused: the state after tick `N+1` is a fixpoint. -/
theorem lock_machine_hysteresis (st : CtrlState) (inp : SubjectInput)
    (top : Bool) (N : ℕ)
    (hp : shouldPause (pauseGroup inp top) = true)
    (hu : shouldPause (unpauseGroup inp top) = false)
    (h0 : pausedOf st top = false)
    (hc : counterOf st top = 0)
    (hN : st.m_dHistorisisSeconds * 1000 = (N : ℚ)) :
    (∀ t, t ≤ N → pausedOf (lockIter inp top t st) top = false ∧
      counterOf (lockIter inp top t st) top = t) ∧
    (∀ t, t < N → (isLocked (lockIter inp top t st) inp top).1 = false) ∧
    (isLocked (lockIter inp top N st) inp top).1 = true ∧
    pausedOf (lockIter inp top (N + 1) st) top = true ∧
    counterOf (lockIter inp top (N + 1) st) top = 0 ∧
    (∀ m, lockIter inp top (N + 1 + m) st = lockIter inp top (N + 1) st) := by
  cases top with
  | false =>
      have H := lock_machine_bottom inp N st hp hu h0 hc hN
      exact ⟨H.1, H.2.1, H.2.2.1,
        by show (lockIter inp false (N + 1) st).m_bBottomPaused = true
           rw [H.2.2.2.1],
        by show (lockIter inp false (N + 1) st).bottomCounter = 0
           rw [H.2.2.2.1],
        H.2.2.2.2⟩
  | true =>
      have H := lock_machine_top inp N st hp hu h0 hc hN
      exact ⟨H.1, H.2.1, H.2.2.1,
        by show (lockIter inp true (N + 1) st).m_bTopPaused = true
           rw [H.2.2.2.1],
        by show (lockIter inp true (N + 1) st).topCounter = 0
           rw [H.2.2.2.1],
        H.2.2.2.2⟩

/-- Claim C2, witness: with hysteresis `1/500` s (`maxCount = 2`), the bottom
joint pauses on tick 3. -/
theorem lock_machine_hysteresis_witness :
    pausedOf (lockIter inpW false 3 stC2) false = true ∧
    counterOf (lockIter inpW false 3 stC2) false = 0 :=
  ⟨(lock_machine_hysteresis stC2 inpW false 2 rfl rfl rfl rfl
      (by norm_num [stC2, stW])).2.2.2.1,
   (lock_machine_hysteresis stC2 inpW false 2 rfl rfl rfl rfl
      (by norm_num [stC2, stW])).2.2.2.2.1⟩

/-- Claim C2, counterexample to the claim as stated: after pausing on tick 3
(`N = 2`), a further continuous pause signal of the same duration (3 more
ticks) leaves the bottom joint paused — it does not toggle back to unpaused. -/
theorem lock_machine_no_unpause_cex :
    (lockIter inpW false 6 stC2).m_bBottomPaused = true := by
  have hN : stC2.m_dHistorisisSeconds * 1000 = ((2 : ℕ) : ℚ) := by
    norm_num [stC2, stW]
  have H := lock_machine_bottom inpW 2 stC2 rfl rfl rfl rfl hN
  have h6 : lockIter inpW false 6 stC2 = lockIter inpW false 3 stC2 :=
    H.2.2.2.2 3
  rw [h6, H.2.2.2.1]

/-- Helper: `getD` on a prefix agrees with `getD` on the full list below the
cut. -/
theorem getD_take_eq (l : List ℚ) (k n : ℕ) (h : k < n) (d : ℚ) :
    (l.take n).getD k d = l.getD k d := by
  rw [List.getD_eq_getElem?_getD, List.getD_eq_getElem?_getD,
    List.getElem?_take_of_lt h]

/-- Helper: a channel slot index is in range of a `N_PARAMS * nActions`
parameter prefix. -/
theorem channel_slot_lt (i j : ℕ) (hi : i < nActions) (hj : j < N_PARAMS) :
    i * N_PARAMS + j < N_PARAMS * nActions := by
  simp only [N_PARAMS, nActions, nClusters, nPrisms] at hi hj ⊢
  omega

/-- Helper: entry `(i, j)` of the decoded channel matrix is the `4i+j`-th raw
slot, rescaled by `scaled = raw*(max-min)+min`. -/
theorem transformActions_channel (params : List ℚ) (ig : Bool) (hy : ℚ)
    (i j : ℕ) (hi : i < nActions) (hj : j < N_PARAMS) :
    ((transformActions params ig hy).1.getD i []).getD j 0 =
      params.getD (i * N_PARAMS + j) 0 * ranges j + mins j := by
  have h1 : (transformActions params ig hy).1 =
      (List.range nActions).map (fun i =>
        (List.range N_PARAMS).map (fun j =>
          params.getD (i * N_PARAMS + j) 0 * ranges j + mins j)) := rfl
  rw [h1]
  simp [List.getD_eq_getElem?_getD, List.getElem?_map, List.getElem?_range,
    hi, hj]

/-- Claim C6: for a parameter vector of length exactly `4*nActions` with all
entries in [0,1], the decoder leaves `m_bIgnoreTouchSensors` and
`m_dHistorisisSeconds` unchanged (the flag path is not entered), and every
decoded channel value is `raw*(max-min)+min`, inside its declared
[min, max] range. -/
theorem decode_no_flags (params : List ℚ) (ig : Bool) (hy : ℚ)
    (hlen : params.length = N_PARAMS * nActions)
    (hb : ∀ x ∈ params, 0 ≤ x ∧ x ≤ 1) :
    (transformActions params ig hy).2.1 = ig ∧
    (transformActions params ig hy).2.2 = hy ∧
    (transformActions params ig hy).1.length = nActions ∧
    (∀ i j, i < nActions → j < N_PARAMS →
      ((transformActions params ig hy).1.getD i []).getD j 0 =
        params.getD (i * N_PARAMS + j) 0 * ranges j + mins j ∧
      mins j ≤ ((transformActions params ig hy).1.getD i []).getD j 0 ∧
      ((transformActions params ig hy).1.getD i []).getD j 0 ≤ maxes j) := by
  have hmod : params.length % 4 = 0 := by
    rw [hlen]
    norm_num [N_PARAMS, nActions, nClusters, nPrisms]
  refine ⟨?_, ?_, ?_, fun i j hi hj => ?_⟩
  · simp [transformActions, hmod]
  · simp [transformActions, hmod]
  · simp [transformActions]
  · have hidx : i * N_PARAMS + j < params.length := by
      rw [hlen]; exact channel_slot_lt i j hi hj
    have hraw : 0 ≤ params.getD (i * N_PARAMS + j) 0 ∧
        params.getD (i * N_PARAMS + j) 0 ≤ 1 := by
      rw [List.getD_eq_getElem _ _ hidx]
      exact hb _ (List.getElem_mem hidx)
    obtain ⟨hr0, hr1⟩ := hraw
    set r := params.getD (i * N_PARAMS + j) 0 with hr
    refine ⟨transformActions_channel params ig hy i j hi hj, ?_, ?_⟩ <;>
      rw [transformActions_channel params ig hy i j hi hj, ← hr] <;>
      simp only [N_PARAMS, nActions, nClusters, nPrisms] at hj <;>
      interval_cases j <;>
      norm_num [mins, maxes, ranges, M_PI] <;>
      nlinarith [hr0, hr1]

/-- Claim C6, witness: a concrete all-`1/2` vector of length 16 decodes with
untouched flags and in-range channel values. -/
theorem decode_no_flags_witness :
    (transformActions p16 true 0.5).2.1 = true ∧
    (transformActions p16 true 0.5).2.2 = 0.5 ∧
    mins 1 ≤ ((transformActions p16 true 0.5).1.getD 0 []).getD 1 0 ∧
    ((transformActions p16 true 0.5).1.getD 0 []).getD 1 0 ≤ maxes 1 := by
  have hb : ∀ x ∈ p16, (0 : ℚ) ≤ x ∧ x ≤ 1 := by
    intro x hx
    rw [List.eq_of_mem_replicate hx]
    norm_num
  have H := decode_no_flags p16 true 0.5 (by decide) hb
  exact ⟨H.1, H.2.1, (H.2.2.2 0 1 (by decide) (by decide)).2.1,
    (H.2.2.2 0 1 (by decide) (by decide)).2.2⟩

/-- Claim C4: for a parameter vector of length `4*nActions + 2` with entries
in [0,1], the decoder extracts both trailing flags — the slot at index
`4*nActions` sets `m_bIgnoreTouchSensors` exactly when its value is below 0.5,
the slot at index `4*nActions + 1` is rescaled into [0,2] seconds as the new
hysteresis — and the channel matrix is the same one decoded from the
`4*nActions`-slot prefix. -/
theorem decode_flag_slots (params : List ℚ) (ig : Bool) (hy : ℚ)
    (hlen : params.length = N_PARAMS * nActions + 2)
    (hb : ∀ x ∈ params, 0 ≤ x ∧ x ≤ 1) :
    ((transformActions params ig hy).2.1 = true ↔
      params.getD (N_PARAMS * nActions) 0 < 0.5) ∧
    (transformActions params ig hy).2.2 =
      params.getD (N_PARAMS * nActions + 1) 0 * 2 ∧
    (0 ≤ (transformActions params ig hy).2.2 ∧
      (transformActions params ig hy).2.2 ≤ 2) ∧
    (∀ (ig2 : Bool) (hy2 : ℚ),
      (transformActions params ig2 hy2).1 =
        (transformActions (params.take (N_PARAMS * nActions)) ig2 hy2).1) := by
  have hmod : params.length % 4 ≠ 0 := by
    rw [hlen]
    norm_num [N_PARAMS, nActions, nClusters, nPrisms]
  have htouch : params.length - (params.length - nActions * N_PARAMS) =
      N_PARAMS * nActions := by
    rw [hlen]
    norm_num [N_PARAMS, nActions, nClusters, nPrisms]
  have hhyst : params.length - (params.length - (nActions * N_PARAMS + 1)) =
      N_PARAMS * nActions + 1 := by
    rw [hlen]
    norm_num [N_PARAMS, nActions, nClusters, nPrisms]
  have h2 : (transformActions params ig hy).2.2 =
      params.getD (N_PARAMS * nActions + 1) 0 * 2 := by
    simp [transformActions, hmod, hhyst]
  refine ⟨?_, h2, ?_, fun ig2 hy2 => ?_⟩
  · have h1 : (transformActions params ig hy).2.1 =
        decide (params.getD (N_PARAMS * nActions) 0 < 0.5) := by
      simp [transformActions, hmod, htouch]
    rw [h1]
    exact decide_eq_true_iff
  · have hidx : N_PARAMS * nActions + 1 < params.length := by
      rw [hlen]; omega
    have hraw := hb _ (List.getElem_mem hidx)
    rw [h2, List.getD_eq_getElem _ _ hidx]
    constructor <;> nlinarith [hraw.1, hraw.2]
  · have hform : ∀ (ps : List ℚ) (g : Bool) (q : ℚ),
        (transformActions ps g q).1 =
          (List.range nActions).map (fun i =>
            (List.range N_PARAMS).map (fun j =>
              ps.getD (i * N_PARAMS + j) 0 * ranges j + mins j)) :=
      fun _ _ _ => rfl
    rw [hform, hform]
    exact List.map_congr_left (fun i hi => List.map_congr_left (fun j hj => by
      rw [getD_take_eq params _ _
        (channel_slot_lt i j (List.mem_range.mp hi) (List.mem_range.mp hj)) 0]))

/-- Claim C4, witness: a concrete all-`1/4` vector of length 18 decodes both
flag slots and the same channel matrix as its 16-slot prefix. -/
theorem decode_flag_slots_witness :
    ((transformActions p18 false 0).2.1 = true ↔
      p18.getD (N_PARAMS * nActions) 0 < 0.5) ∧
    (transformActions p18 false 0).2.2 =
      p18.getD (N_PARAMS * nActions + 1) 0 * 2 ∧
    (transformActions p18 true 1).1 =
      (transformActions (p18.take (N_PARAMS * nActions)) true 1).1 := by
  have hb : ∀ x ∈ p18, (0 : ℚ) ≤ x ∧ x ≤ 1 := by
    intro x hx
    rw [List.eq_of_mem_replicate hx]
    norm_num
  have H := decode_flag_slots p18 false 0 (by decide) hb
  exact ⟨H.1, H.2.1, H.2.2.2 true 1⟩

end DuCTT
